import Mathlib

/-!
Verification of the RSS-to-output transformation in `src/main.py`.

The XML tree produced by `xml.etree.ElementTree.fromstring` is embedded as the
inductive `Element` (tag, text content, direct children); the stdlib parse step
itself is abstracted as an `Except PyExc Element` argument to `rssParser`, since
a `ParseError` raised by `fromstring` propagates unchanged through `rss_parser`.
Python exceptions are modelled by the error type `PyExc`; functions that can
raise return `Except PyExc _`.  Python `None`-able strings (`node.text`) are
`Option String`, and Python string formatting of such values (`f"...{x}..."`)
is `pyStr`.  Dictionaries built by the JSON renderer are association lists in
insertion order, with `dictSet` modelling `d[k] = v` (replace in place, else
append) and `dictUpdate` modelling `d.update(e)`.  `json.dumps` serialization
is not modelled; the JSON renderer's result is the object it would serialize.
-/

/-- Python exceptions raised by the program: `UnhandledException` (negative
limit, line 35), `xml.etree.ElementTree.ParseError` (malformed document),
`IndexError` (`output[-1]` on an empty list, line 55), and `TypeError`
(`", ".join` applied to a list containing `None`, line 67). -/
inductive PyExc where
  | unhandledException
  | parseError
  | indexError
  | typeError
deriving DecidableEq

/-- A parsed XML element: tag name, text content (`None` when the element has
no text, as in ElementTree), and the list of direct children in document
order. -/
inductive Element where
  | mk (tag : String) (text : Option String) (children : List Element)

/-- The element's tag name. -/
def Element.tag : Element → String
  | .mk t _ _ => t

/-- The element's text content; `none` models ElementTree's `None`. -/
def Element.text : Element → Option String
  | .mk _ x _ => x

/-- The element's direct children in document order. -/
def Element.children : Element → List Element
  | .mk _ _ c => c

/-- `e.find t`: first direct child with tag `t`, or `none` (ElementTree
`e.find(t)`). -/
def Element.find (e : Element) (t : String) : Option Element :=
  e.children.find? (fun c => c.tag == t)

/-- `e.findall t`: all direct children with tag `t` (ElementTree
`e.findall(t)`). -/
def Element.findall (e : Element) (t : String) : List Element :=
  e.children.filter (fun c => c.tag == t)

/-- Python `f"{x}"` for an optional string: `None` prints as `"None"`. -/
def pyStr : Option String → String
  | none => "None"
  | some s => s

/-- The apostrophe character, Python's default string-repr quote. -/
def pyQuote : Char := Char.ofNat 39

/-- The double-quote character. -/
def pyDQuote : Char := Char.ofNat 34

/-- The backslash character. -/
def pyBackslash : Char := Char.ofNat 92

/-- Python `repr` of one character inside a string literal quoted by `q`. -/
def pyReprChar (q c : Char) : String :=
  if c = pyBackslash then String.singleton pyBackslash ++ String.singleton pyBackslash
  else if c = q then String.singleton pyBackslash ++ String.singleton q
  else if c = Char.ofNat 10 then ("\\n")
  else if c = Char.ofNat 13 then ("\\r")
  else if c = Char.ofNat 9 then ("\\t")
  else if c.toNat < 32 ∨ c.toNat = 127 then
    ("\\x") ++ String.singleton (Nat.digitChar (c.toNat / 16)) ++
      String.singleton (Nat.digitChar (c.toNat % 16))
  else String.singleton c

/-- Python `repr` of a string: single-quoted unless the string contains an
apostrophe and no double quote, with the usual escapes. -/
def pyReprStr (s : String) : String :=
  let q := if s.data.contains pyQuote && !(s.data.contains pyDQuote) then pyDQuote else pyQuote
  String.singleton q ++ String.join (s.data.map (pyReprChar q)) ++ String.singleton q

/-- Python `str` of a list of optional strings, as produced by
`f"...{categories}"` on line 116: `['a', 'b']`, with `None` for missing
text. -/
def pyListRepr (l : List (Option String)) : String :=
  "[" ++ String.intercalate (", ") (l.map (fun o => match o with
    | none => "None"
    | some s => pyReprStr s)) ++ "]"

/-- Python `sep.join(l)` on a list of optional strings: raises `TypeError`
when any entry is `None`. -/
def pyJoin (sep : String) (l : List (Option String)) : Except PyExc String :=
  if l.all Option.isSome then
    .ok (String.intercalate sep (l.map (fun o => o.getD (""))))
  else .error .typeError

/-- An ordered field catalog: XML element name paired with display label,
in insertion order (a Python dict of strings). -/
abbrev Catalog := List (String × String)

/-- Python `d[k]` on a string-valued dict; total with default `""` (every
lookup performed by the program is on a present key). -/
def dictGet (d : Catalog) (k : String) : String :=
  match d.find? (fun q => q.1 == k) with
  | some q => q.2
  | none => ""

/-- The channel field catalog from line 37 of `main.py`, including the
`managinEditor` spelling exactly as in the source. -/
def channel_elements_dict : Catalog :=
  [("title", "Feed"), ("link", "Link"), ("lastBuildDate", "Last Build Date"),
   ("pubDate", "Publish Date"), ("language", "Language"), ("category", "Categories"),
   ("managinEditor", "Editor"), ("description", "Description")]

/-- The item field catalog from line 39 of `main.py`. -/
def item_elements_dict : Catalog :=
  [("title", "Title"), ("author", "Author"), ("pubDate", "Published"),
   ("link", "Link"), ("category", "Categories"), ("description", "")]

/-- `get_channel_items` (lines 109-119): one pass over the channel catalog in
order, emitting `"{label}: {value}"` for each present scalar field and
`"{label}: {str(categories)}"` for a non-empty category list.  The imperative
`result.append` loop is embedded as recursion over the catalog, emitting lines
in iteration order. -/
def get_channel_items : Catalog → Element → List String
  | [], _ => []
  | p :: rest, channel =>
    (match channel.find p.1 with
     | none => []
     | some node =>
       if p.1 == "category" then
         (let categories := (channel.findall ("category")).map Element.text
          if categories.isEmpty then []
          else [p.2 ++ ": " ++ pyListRepr categories])
       else [p.2 ++ ": " ++ pyStr node.text])
    ++ get_channel_items rest channel

/-- The inner per-item loop of `get_output` (lines 61-72), over the item
catalog in order: categories joined with `", "` after the label with no colon
(line 67, labelled from `channel_elements_dict`), a dead branch comparing the
key against the literal `"<description>"` (line 69), and the generic
`"{label}: {value}"` rule otherwise. -/
def item_fields_lines (cd : Catalog) (item : Element) : Catalog → Except PyExc (List String)
  | [] => .ok []
  | p :: rest =>
    match item.find p.1 with
    | none => item_fields_lines cd item rest
    | some node =>
      let content := node.text
      if p.1 == "category" then
        (let categories := (item.findall ("category")).map Element.text
         if categories.isEmpty then item_fields_lines cd item rest
         else
           match pyJoin (", ") categories with
           | .error e => .error e
           | .ok j => (item_fields_lines cd item rest).map
               (fun more => (dictGet cd p.1 ++ " " ++ j) :: more))
      else if p.1 == "<description>" then
        (item_fields_lines cd item rest).map (fun more => ("\n" ++ pyStr content) :: more)
      else
        (item_fields_lines cd item rest).map (fun more => (p.2 ++ ": " ++ pyStr content) :: more)

/-- The lines contributed by one `<item>` element in text mode. -/
def get_item_lines (cd itd : Catalog) (item : Element) : Except PyExc (List String) :=
  item_fields_lines cd item itd

/-- `output[-1] = output[-1] + "\n"` (line 55): raises `IndexError` on an
empty list, otherwise appends a newline to the last line. -/
def setLast : List String → Except PyExc (List String)
  | [] => .error .indexError
  | [x] => .ok [x ++ "\n"]
  | x :: y :: rest => (setLast (y :: rest)).map (fun l => x :: l)

/-- The loop guard `if limit is not None and count >= limit: break`
(line 59). -/
def breakCond (limit : Option Int) (count : Nat) : Bool :=
  match limit with
  | some l => decide ((count : Int) ≥ l)
  | none => false

/-- The `for item in items` loop of `get_output` (lines 58-73): break before
processing once `count` reaches `limit`, increment `count` after each item. -/
def items_text_loop (cd itd : Catalog) (limit : Option Int) (count : Nat) :
    List Element → Except PyExc (List String)
  | [] => .ok []
  | item :: rest =>
    if breakCond limit count then .ok []
    else
      match get_item_lines cd itd item with
      | .error e => .error e
      | .ok lines =>
        match items_text_loop cd itd limit (count + 1) rest with
        | .error e => .error e
        | .ok more => .ok (lines ++ more)

/-- The `for channel in channels` loop of `get_output` (lines 52-73), carrying
the accumulated output across channels: extend with the channel lines, patch
the last accumulated line with a newline, then append the item lines. -/
def text_channels_loop (cd itd : Catalog) (limit : Option Int) :
    List String → List Element → Except PyExc (List String)
  | output, [] => .ok output
  | output, channel :: rest =>
    match setLast (output ++ get_channel_items cd channel) with
    | .error e => .error e
    | .ok output2 =>
      match items_text_loop cd itd limit 0 (channel.findall ("item")) with
      | .error e => .error e
      | .ok ilines => text_channels_loop cd itd limit (output2 ++ ilines) rest

/-- `get_output` (lines 49-74): text-mode rendering of every channel. -/
def get_output (cd itd : Catalog) (parsed_xml : Element) (limit : Option Int) :
    Except PyExc (List String) :=
  text_channels_loop cd itd limit [] (parsed_xml.findall ("channel"))

/-- A JSON value as built by the JSON renderer before `json.dumps`: a scalar
string-or-null, an array of strings-or-nulls (categories), or an array of
objects (items). -/
inductive JsonVal where
  | str (s : Option String)
  | strList (l : List (Option String))
  | objList (l : List (List (String × JsonVal)))

/-- A JSON object: key/value pairs in insertion order (a Python dict). -/
abbrev JsonObj := List (String × JsonVal)

/-- Python `d[k] = v` on a dict: replace the value in place when the key is
present, otherwise append the new pair. -/
def dictSet : JsonObj → String → JsonVal → JsonObj
  | [], k, v => [(k, v)]
  | q :: d, k, v => if q.1 == k then (k, v) :: d else q :: dictSet d k v

/-- Python `d.get(k)` / key lookup: value of the first pair with key `k`. -/
def dictLookup (d : JsonObj) (k : String) : Option JsonVal :=
  (d.find? (fun q => q.1 == k)).map Prod.snd

/-- Python `d.update(e)`: assign every pair of `e` into `d` in order. -/
def dictUpdate (d : JsonObj) (e : JsonObj) : JsonObj :=
  e.foldl (fun acc q => dictSet acc q.1 q.2) d

/-- The loop body of `get_channel_items_json` (lines 122-132): for each
catalog key in order, store the category list under its label and every other
present field under its raw element name. -/
def gcij_loop (channel : Element) : JsonObj → Catalog → JsonObj
  | result, [] => result
  | result, p :: rest =>
    gcij_loop channel
      (match channel.find p.1 with
       | none => result
       | some node =>
         if p.1 == "category" then
           (let categories := (channel.findall ("category")).map Element.text
            if categories.isEmpty then result
            else dictSet result p.2 (.strList categories))
         else dictSet result p.1 (.str node.text))
      rest

/-- `get_channel_items_json` (lines 122-132). -/
def get_channel_items_json (cd : Catalog) (channel : Element) : JsonObj :=
  gcij_loop channel [] cd

/-- The per-item dict construction of `get_json_output` (lines 90-101): the
category list is stored under `channel_elements_dict["category"]` (line 97),
every other present field under its raw element name (line 100). -/
def item_dict_loop (cd : Catalog) (item : Element) : JsonObj → Catalog → JsonObj
  | items_dict, [] => items_dict
  | items_dict, p :: rest =>
    item_dict_loop cd item
      (match item.find p.1 with
       | none => items_dict
       | some node =>
         if p.1 == "category" then
           (let categories := (item.findall ("category")).map Element.text
            if categories.isEmpty then items_dict
            else dictSet items_dict (dictGet cd p.1) (.strList categories))
         else dictSet items_dict p.1 (.str node.text))
      rest

/-- The JSON object built for one `<item>` element. -/
def get_item_dict (cd itd : Catalog) (item : Element) : JsonObj :=
  item_dict_loop cd item [] itd

/-- The `for item in items` loop of `get_json_output` (lines 87-102): break
before processing once `count` reaches `limit`. -/
def items_json_loop (cd itd : Catalog) (limit : Option Int) (count : Nat) :
    List Element → List JsonObj
  | [] => []
  | item :: rest =>
    if breakCond limit count then []
    else get_item_dict cd itd item :: items_json_loop cd itd limit (count + 1) rest

/-- The `for channel in channels` loop of `get_json_output` (lines 81-104):
merge the channel object into the output, then store the item list under
`"items"` when it is non-empty. -/
def json_channels_loop (cd itd : Catalog) (limit : Option Int) :
    JsonObj → List Element → JsonObj
  | output, [] => output
  | output, channel :: rest =>
    let output1 := dictUpdate output (get_channel_items_json cd channel)
    let items_list := items_json_loop cd itd limit 0 (channel.findall ("item"))
    json_channels_loop cd itd limit
      (if items_list.isEmpty then output1
       else dictSet output1 ("items") (.objList items_list)) rest

/-- `get_json_output` (lines 77-106), up to (but not including) the final
`json.dumps` serialization: the object that would be serialized. -/
def get_json_output (cd itd : Catalog) (parsed_xml : Element) (limit : Option Int) : JsonObj :=
  json_channels_loop cd itd limit [] (parsed_xml.findall ("channel"))

/-- The value returned by `rss_parser`: the list of text lines, or (in JSON
mode) the object serialized into the single returned string. -/
inductive RssOutput where
  | lines (l : List String)
  | jsonDoc (d : JsonObj)

/-- `limit is not None and limit < 0` (line 34). -/
def limitInvalid : Option Int → Bool
  | some l => decide (l < 0)
  | none => false

/-- `rss_parser` (lines 12-46): raise on a negative limit, propagate any parse
failure of `element_tree.fromstring`, then dispatch on `json`. -/
def rssParser (parse_result : Except PyExc Element) (limit : Option Int)
    (json : Bool) : Except PyExc RssOutput :=
  if limitInvalid limit then .error .unhandledException
  else
    match parse_result with
    | .error e => .error e
    | .ok parsed_xml =>
      if json then
        .ok (.jsonDoc (get_json_output channel_elements_dict item_elements_dict parsed_xml limit))
      else
        (get_output channel_elements_dict item_elements_dict parsed_xml limit).map .lines

/-- Helper to build elements concisely. -/
def el (tag : String) (text : Option String) (children : List Element) : Element :=
  .mk tag text children

/-- The parse tree of the spec's end-to-end example input
`<rss><channel><title>Some RSS Channel</title><link>https://some.rss.com</link><description>Some RSS Channel</description></channel></rss>`. -/
def sampleDoc : Element :=
  el ("rss") none
    [el ("channel") none
      [el ("title") (some ("Some RSS Channel")) [],
       el ("link") (some ("https://some.rss.com")) [],
       el ("description") (some ("Some RSS Channel")) []]]

/-- A document whose channel carries a correctly spelled `<managingEditor>`
element alongside a `<title>`. -/
def editorDoc : Element :=
  el ("rss") none
    [el ("channel") none
      [el ("title") (some ("Some Feed")) [],
       el ("managingEditor") (some ("editor@example.com")) []]]

/-- A channel whose only recognized child is a `<title>` with no text
content. -/
def emptyTitleChannel : Element :=
  el ("channel") none [el ("title") none []]

/-- An item whose only child is a `<title>` with no text content. -/
def emptyTitleItem : Element :=
  el ("item") none [el ("title") none []]

/-- A channel with exactly two `<category>` children, `a` and `b`. -/
def twoCatChannel : Element :=
  el ("channel") none
    [el ("category") (some ("a")) [], el ("category") (some ("b")) []]

/-- A document whose single channel has no recognized child elements. -/
def emptyChannelDoc : Element :=
  el ("rss") none [el ("channel") none []]

/-- A document with one channel (`title` `T`) and two items with titles
`I1` and `I2`. -/
def c2Doc : Element :=
  el ("rss") none
    [el ("channel") none
      [el ("title") (some ("T")) [],
       el ("item") none [el ("title") (some ("I1")) []],
       el ("item") none [el ("title") (some ("I2")) []]]]

/-- An item whose only child is a `<description>` with text `hello`. -/
def descItem : Element :=
  el ("item") none [el ("description") (some ("hello")) []]

/-- The lines contributed by a single channel-catalog entry, used to state
per-field properties of `get_channel_items`. -/
def channelFieldLines (channel : Element) (p : String × String) : List String :=
  match channel.find p.1 with
  | none => []
  | some node =>
    if p.1 == "category" then
      (let categories := (channel.findall ("category")).map Element.text
       if categories.isEmpty then []
       else [p.2 ++ ": " ++ pyListRepr categories])
    else [p.2 ++ ": " ++ pyStr node.text]

/-- The line contributed by one scalar (non-category) channel field. -/
def channelScalarLine (channel : Element) (tag label : String) : List String :=
  match channel.find tag with
  | none => []
  | some node => [label ++ ": " ++ pyStr node.text]

/-- The lines contributed by a single item-catalog entry. -/
def itemFieldLinesE (cd : Catalog) (item : Element) (p : String × String) :
    Except PyExc (List String) :=
  match item.find p.1 with
  | none => .ok []
  | some node =>
    let content := node.text
    if p.1 == "category" then
      (let categories := (item.findall ("category")).map Element.text
       if categories.isEmpty then .ok []
       else
         match pyJoin (", ") categories with
         | .error e => .error e
         | .ok j => .ok [dictGet cd p.1 ++ " " ++ j])
    else if p.1 == "<description>" then .ok ["\n" ++ pyStr content]
    else .ok [p.2 ++ ": " ++ pyStr content]

/-- The line contributed by one scalar (non-category) item field. -/
def itemScalarLine (item : Element) (tag label : String) : List String :=
  match item.find tag with
  | none => []
  | some node => [label ++ ": " ++ pyStr node.text]

/-- The item-level category line, in the all-texts-present case: label and
comma-joined values with no colon. -/
def itemCatLine (item : Element) : List String :=
  let categories := (item.findall ("category")).map Element.text
  if categories.isEmpty then []
  else ["Categories " ++ String.intercalate (", ") (categories.map (fun o => o.getD ("")))]

/-- The JSON key a channel-catalog entry stores under: the display label for
the category entry, the raw element name otherwise. -/
def jKey (p : String × String) : String :=
  if p.1 == "category" then p.2 else p.1

/-- The pairs contributed by a single channel-catalog entry to the channel
JSON object. -/
def channelFieldJson (channel : Element) (p : String × String) : JsonObj :=
  match channel.find p.1 with
  | none => []
  | some node =>
    if p.1 == "category" then
      (let categories := (channel.findall ("category")).map Element.text
       if categories.isEmpty then []
       else [(p.2, .strList categories)])
    else [(p.1, .str node.text)]

/-- The JSON key an item-catalog entry stores under: the channel catalog's
label for the category entry (line 97), the raw element name otherwise. -/
def ijKey (cd : Catalog) (p : String × String) : String :=
  if p.1 == "category" then dictGet cd p.1 else p.1

/-- The pairs contributed by a single item-catalog entry to an item JSON
object. -/
def itemFieldJson (cd : Catalog) (item : Element) (p : String × String) : JsonObj :=
  match item.find p.1 with
  | none => []
  | some node =>
    if p.1 == "category" then
      (let categories := (item.findall ("category")).map Element.text
       if categories.isEmpty then []
       else [(dictGet cd p.1, .strList categories)])
    else [(p.1, .str node.text)]

/-- **C1.** The end-to-end example evaluated on the code: the blank-line
separator newline is appended to `output[-1]` after all channel lines, i.e. to
the *last* channel line (`Description`), not to the `Link` line. -/
theorem c1_end_to_end :
    rssParser (.ok sampleDoc) none false =
      .ok (.lines ["Feed: Some RSS Channel", "Link: https://some.rss.com",
        "Description: Some RSS Channel\n"]) := rfl

/-- **C1, counterexample.** The claimed output, with the trailing newline on
the second (`Link`) line, is not what the code returns. -/
theorem c1_counterexample :
    rssParser (.ok sampleDoc) none false ≠
      .ok (.lines ["Feed: Some RSS Channel", "Link: https://some.rss.com\n",
        "Description: Some RSS Channel"]) := by
  have h : rssParser (.ok sampleDoc) none false =
      .ok (.lines ["Feed: Some RSS Channel", "Link: https://some.rss.com",
        "Description: Some RSS Channel\n"]) := rfl
  rw [h]
  intro hc
  injection hc with hc
  injection hc with hc
  exact absurd hc (by decide)

/-- **C4.** The channel catalog contains the typo key `managinEditor` and no
`managingEditor` key, so a correctly spelled `<managingEditor>` element is
silently ignored: the renderer emits no `Editor` line for `editorDoc`. -/
theorem c4_managing_editor_typo :
    ("managinEditor", "Editor") ∈ channel_elements_dict ∧
    ((channel_elements_dict.map Prod.fst).contains ("managingEditor")) = false ∧
    rssParser (.ok editorDoc) none false = .ok (.lines ["Feed: Some Feed\n"]) :=
  ⟨by decide, by decide, rfl⟩

/-- **C6.** A provided negative limit makes `rss_parser` raise (the single
wrapped `UnhandledException`) before anything else, regardless of the
document, and no output is produced. -/
theorem c6_negative_limit (parse_result : Except PyExc Element) (l : Int)
    (json : Bool) (h : l < 0) :
    rssParser parse_result (some l) json = .error .unhandledException := by
  unfold rssParser limitInvalid
  simp [h]

/-- **C6, witness.** -/
theorem c6_negative_limit_witness :
    (-1 : Int) < 0 ∧
      rssParser (.ok sampleDoc) (some (-1)) false = .error .unhandledException :=
  ⟨by decide, c6_negative_limit (.ok sampleDoc) (-1) false (by decide)⟩

/-- **C7.** When parsing fails (`element_tree.fromstring` raises on input that
is not well-formed XML), `rss_parser` propagates the failure and produces no
output, provided the limit check before it does not fire. -/
theorem c7_malformed_propagates (limit : Option Int) (json : Bool)
    (h : limitInvalid limit = false) :
    rssParser (.error .parseError) limit json = .error .parseError := by
  unfold rssParser
  simp [h]

/-- **C7, witness.** -/
theorem c7_malformed_propagates_witness :
    limitInvalid none = false ∧
      rssParser (.error .parseError) none false = .error .parseError :=
  ⟨rfl, c7_malformed_propagates none false rfl⟩

theorem find_none_iff_findall_nil (e : Element) (t : String) :
    e.find t = none ↔ e.findall t = [] := by
  simp [Element.find, Element.findall, List.find?_eq_none, List.filter_eq_nil_iff]

theorem dictLookup_nil (k : String) : dictLookup [] k = none := rfl

theorem dictLookup_cons (q : String × JsonVal) (d : JsonObj) (k : String) :
    dictLookup (q :: d) k = if q.1 == k then some q.2 else dictLookup d k := by
  by_cases h : (q.1 == k) = true <;> simp [dictLookup, List.find?, h]

theorem dictLookup_dictSet_self (d : JsonObj) (k : String) (v : JsonVal) :
    dictLookup (dictSet d k v) k = some v := by
  induction d with
  | nil => simp [dictSet, dictLookup, List.find?]
  | cons q d ih =>
    by_cases h : (q.1 == k) = true <;> simp [dictSet, h, dictLookup_cons, ih]

theorem dictLookup_dictSet_ne (d : JsonObj) (k k' : String) (v : JsonVal)
    (h : (k == k') = false) :
    dictLookup (dictSet d k v) k' = dictLookup d k' := by
  induction d with
  | nil => simp [dictSet, dictLookup_cons, h]
  | cons q d ih =>
    by_cases hq : (q.1 == k) = true
    · have hqk : q.1 = k := by simpa using hq
      simp [dictSet, hq, dictLookup_cons, h, hqk]
    · simp [dictSet, hq, dictLookup_cons, ih]

theorem dictSet_eq_append (d : JsonObj) (k : String) (v : JsonVal)
    (h : ∀ q ∈ d, (q.1 == k) = false) :
    dictSet d k v = d ++ [(k, v)] := by
  induction d with
  | nil => rfl
  | cons q d ih =>
    have hq : (q.1 == k) = false := h q (by simp)
    simp [dictSet, hq]
    exact ih (fun r hr => h r (by simp [hr]))

theorem mem_dictSet (d : JsonObj) (k : String) (v : JsonVal) (q : String × JsonVal)
    (hq : q ∈ dictSet d k v) : q ∈ d ∨ q.1 = k := by
  induction d with
  | nil => simp [dictSet] at hq; simp [hq]
  | cons r d ih =>
    by_cases hr : (r.1 == k) = true
    · simp [dictSet, hr] at hq
      rcases hq with hq | hq
      · right; simp [hq]
      · left; simp [hq]
    · simp [dictSet, hr] at hq
      rcases hq with hq | hq
      · left; simp [hq]
      · rcases ih hq with h' | h'
        · left; simp [h']
        · right; exact h'

theorem dictLookup_dictUpdate_ne (d e : JsonObj) (k : String)
    (h : ∀ q ∈ e, (q.1 == k) = false) :
    dictLookup (dictUpdate d e) k = dictLookup d k := by
  induction e generalizing d with
  | nil => rfl
  | cons q e ih =>
    have step : dictUpdate d (q :: e) = dictUpdate (dictSet d q.1 q.2) e := rfl
    rw [step, ih _ (fun r hr => h r (by simp [hr]))]
    exact dictLookup_dictSet_ne d q.1 k q.2 (h q (by simp))

theorem dictLookup_append (d e : JsonObj) (k : String) :
    dictLookup (d ++ e) k = (dictLookup d k).or (dictLookup e k) := by
  unfold dictLookup
  rw [List.find?_append]
  cases List.find? (fun q => q.1 == k) d <;> simp [Option.or]

theorem dictLookup_flatten_none {α : Type} (g : α → JsonObj) (k : String) :
    ∀ l : List α, (∀ a ∈ l, dictLookup (g a) k = none) →
      dictLookup ((l.map g).flatten) k = none := by
  intro l
  induction l with
  | nil => intro _; rfl
  | cons b l ih =>
    intro h
    simp only [List.map_cons, List.flatten_cons]
    rw [dictLookup_append, h b (by simp), ih (fun a ha => h a (by simp [ha]))]
    rfl

theorem dictLookup_flatten_mem {α : Type} (g : α → JsonObj) (k : String)
    (l : List α) (a : α) (ha : a ∈ l)
    (hother : ∀ b ∈ l, b ≠ a → dictLookup (g b) k = none) :
    dictLookup ((l.map g).flatten) k = dictLookup (g a) k := by
  induction l with
  | nil => cases ha
  | cons b l ih =>
    simp only [List.map_cons, List.flatten_cons]
    rw [dictLookup_append]
    by_cases hba : b = a
    · subst hba
      cases hgb : dictLookup (g b) k with
      | some v => rfl
      | none =>
        by_cases hbl : b ∈ l
        · rw [ih hbl (fun c hc hca => hother c (by simp [hc]) hca), hgb]; rfl
        · rw [dictLookup_flatten_none g k l
            (fun c hc => hother c (by simp [hc]) (fun hcb => hbl (hcb ▸ hc)))]
          rfl
    · have hal : a ∈ l := by
        rcases List.mem_cons.mp ha with h' | h'
        · exact absurd h'.symm hba
        · exact h'
      rw [hother b (by simp) hba, ih hal (fun c hc hca => hother c (by simp [hc]) hca)]
      rfl

theorem get_channel_items_eq (cd : Catalog) (channel : Element) :
    get_channel_items cd channel = (cd.map (channelFieldLines channel)).flatten := by
  induction cd with
  | nil => rfl
  | cons p rest ih =>
    simp only [List.map_cons, List.flatten_cons, ← ih]
    rfl

theorem gci_empty (cd : Catalog) (channel : Element)
    (h : ∀ p ∈ cd, channel.find p.1 = none) :
    get_channel_items cd channel = [] := by
  induction cd with
  | nil => rfl
  | cons p rest ih =>
    have hp := h p (by simp)
    have hr := ih (fun q hq => h q (by simp [hq]))
    show (match channel.find p.1 with
      | none => []
      | some node =>
        if p.1 == "category" then
          (let categories := (channel.findall ("category")).map Element.text
           if categories.isEmpty then []
           else [p.2 ++ ": " ++ pyListRepr categories])
        else [p.2 ++ ": " ++ pyStr node.text])
      ++ get_channel_items rest channel = []
    rw [hp, hr]
    rfl

theorem item_fields_lines_cons (cd : Catalog) (item : Element) (p : String × String)
    (rest : Catalog) :
    item_fields_lines cd item (p :: rest) =
      match itemFieldLinesE cd item p with
      | .error e => .error e
      | .ok x => (item_fields_lines cd item rest).map (fun more => x ++ more) := by
  cases hf : item.find p.1 with
  | none =>
    simp only [item_fields_lines, itemFieldLinesE, hf]
    cases hr : item_fields_lines cd item rest <;> simp [hr, Except.map]
  | some node =>
    cases hc : (p.1 == "category") with
    | true =>
      cases he : ((item.findall ("category")).map Element.text).isEmpty with
      | true =>
        simp only [item_fields_lines, itemFieldLinesE, hf, hc, he]
        cases hr : item_fields_lines cd item rest <;> simp [hr, Except.map]
      | false =>
        simp only [item_fields_lines, itemFieldLinesE, hf, hc, he]
        cases hj : pyJoin (", ") ((item.findall ("category")).map Element.text) with
        | error e => simp [hj]
        | ok j =>
          cases hr : item_fields_lines cd item rest <;> simp [hj, hr, Except.map]
    | false =>
      cases hd : (p.1 == "<description>") with
      | true =>
        simp only [item_fields_lines, itemFieldLinesE, hf, hc, hd]
        cases hr : item_fields_lines cd item rest <;> simp [hr, Except.map]
      | false =>
        simp only [item_fields_lines, itemFieldLinesE, hf, hc, hd]
        cases hr : item_fields_lines cd item rest <;> simp [hr, Except.map]

theorem item_fields_lines_eq (cd : Catalog) (item : Element) (itd : Catalog) :
    item_fields_lines cd item itd =
      (itd.mapM (itemFieldLinesE cd item)).map List.flatten := by
  induction itd with
  | nil => rfl
  | cons p rest ih =>
    rw [item_fields_lines_cons, List.mapM_cons, ih]
    cases hfp : itemFieldLinesE cd item p with
    | error e => rfl
    | ok x =>
      cases hm : rest.mapM (itemFieldLinesE cd item) with
      | error e => rfl
      | ok xs => rfl

theorem mem_channelFieldJson_key (channel : Element) (p : String × String)
    (q : String × JsonVal) (hq : q ∈ channelFieldJson channel p) : q.1 = jKey p := by
  unfold channelFieldJson at hq
  unfold jKey
  cases hf : channel.find p.1 with
  | none => rw [hf] at hq; cases hq
  | some node =>
    rw [hf] at hq
    cases hc : (p.1 == "category") with
    | true =>
      rw [hc] at hq
      simp only [if_true] at hq ⊢
      cases he : ((channel.findall ("category")).map Element.text).isEmpty with
      | true => rw [he] at hq; cases hq
      | false =>
        rw [he] at hq
        simp at hq
        simp [hq]
    | false =>
      rw [hc] at hq
      simp at hq ⊢
      simp [hq]

theorem gcij_loop_eq (channel : Element) :
    ∀ (cd : Catalog) (acc : JsonObj),
      (cd.map jKey).Nodup →
      (∀ p ∈ cd, ∀ q ∈ acc, (q.1 == jKey p) = false) →
      gcij_loop channel acc cd = acc ++ (cd.map (channelFieldJson channel)).flatten := by
  intro cd
  induction cd with
  | nil => intro acc _ _; simp [gcij_loop]
  | cons p rest ih =>
    intro acc hnd hdisj
    have hstep :
        (match channel.find p.1 with
         | none => acc
         | some node =>
           if p.1 == "category" then
             (let categories := (channel.findall ("category")).map Element.text
              if categories.isEmpty then acc
              else dictSet acc p.2 (.strList categories))
           else dictSet acc p.1 (.str node.text)) = acc ++ channelFieldJson channel p := by
      cases hf : channel.find p.1 with
      | none => simp [channelFieldJson, hf]
      | some node =>
        cases hc : (p.1 == "category") with
        | true =>
          cases he : ((channel.findall ("category")).map Element.text).isEmpty with
          | true => simp [channelFieldJson, hf, hc, he]
          | false =>
            simp only [channelFieldJson, hf, hc, he, if_true, Bool.false_eq_true,
              if_false]
            refine dictSet_eq_append acc p.2 _ (fun q hq => ?_)
            have := hdisj p (by simp) q hq
            simpa [jKey, hc] using this
        | false =>
          simp only [channelFieldJson, hf, hc, Bool.false_eq_true, if_false]
          refine dictSet_eq_append acc p.1 _ (fun q hq => ?_)
          have := hdisj p (by simp) q hq
          simpa [jKey, hc] using this
    have hloop : gcij_loop channel acc (p :: rest) =
        gcij_loop channel (acc ++ channelFieldJson channel p) rest := by
      rw [gcij_loop, hstep]
    have hnd' : (jKey p :: rest.map jKey).Nodup := by simpa using hnd
    have hnotmem := (List.nodup_cons.mp hnd').1
    have hndrest := (List.nodup_cons.mp hnd').2
    have hdisj' : ∀ p' ∈ rest, ∀ q ∈ acc ++ channelFieldJson channel p,
        (q.1 == jKey p') = false := by
      intro p' hp' q hq
      rcases List.mem_append.mp hq with hqa | hqf
      · exact hdisj p' (by simp [hp']) q hqa
      · have hk := mem_channelFieldJson_key channel p q hqf
        have hne : jKey p ≠ jKey p' := fun heq =>
          hnotmem (heq ▸ List.mem_map_of_mem jKey hp')
        rw [hk]
        exact beq_eq_false_iff_ne.mpr hne
    rw [hloop, ih _ hndrest hdisj']
    simp [List.flatten_cons]

theorem get_channel_items_json_eq (channel : Element) :
    get_channel_items_json channel_elements_dict channel =
      (channel_elements_dict.map (channelFieldJson channel)).flatten := by
  have := gcij_loop_eq channel channel_elements_dict [] (by decide) (by simp)
  simpa [get_channel_items_json] using this

theorem mem_itemFieldJson_key (cd : Catalog) (item : Element) (p : String × String)
    (q : String × JsonVal) (hq : q ∈ itemFieldJson cd item p) : q.1 = ijKey cd p := by
  unfold itemFieldJson at hq
  unfold ijKey
  cases hf : item.find p.1 with
  | none => rw [hf] at hq; cases hq
  | some node =>
    rw [hf] at hq
    cases hc : (p.1 == "category") with
    | true =>
      rw [hc] at hq
      simp only [if_true] at hq ⊢
      cases he : ((item.findall ("category")).map Element.text).isEmpty with
      | true => rw [he] at hq; cases hq
      | false =>
        rw [he] at hq
        simp at hq
        simp [hq]
    | false =>
      rw [hc] at hq
      simp at hq ⊢
      simp [hq]

theorem item_dict_loop_eq (cd : Catalog) (item : Element) :
    ∀ (itd : Catalog) (acc : JsonObj),
      (itd.map (ijKey cd)).Nodup →
      (∀ p ∈ itd, ∀ q ∈ acc, (q.1 == ijKey cd p) = false) →
      item_dict_loop cd item acc itd = acc ++ (itd.map (itemFieldJson cd item)).flatten := by
  intro itd
  induction itd with
  | nil => intro acc _ _; simp [item_dict_loop]
  | cons p rest ih =>
    intro acc hnd hdisj
    have hstep :
        (match item.find p.1 with
         | none => acc
         | some node =>
           if p.1 == "category" then
             (let categories := (item.findall ("category")).map Element.text
              if categories.isEmpty then acc
              else dictSet acc (dictGet cd p.1) (.strList categories))
           else dictSet acc p.1 (.str node.text)) = acc ++ itemFieldJson cd item p := by
      cases hf : item.find p.1 with
      | none => simp [itemFieldJson, hf]
      | some node =>
        cases hc : (p.1 == "category") with
        | true =>
          cases he : ((item.findall ("category")).map Element.text).isEmpty with
          | true => simp [itemFieldJson, hf, hc, he]
          | false =>
            simp only [itemFieldJson, hf, hc, he, if_true, Bool.false_eq_true, if_false]
            refine dictSet_eq_append acc (dictGet cd p.1) _ (fun q hq => ?_)
            have := hdisj p (by simp) q hq
            simpa [ijKey, hc] using this
        | false =>
          simp only [itemFieldJson, hf, hc, Bool.false_eq_true, if_false]
          refine dictSet_eq_append acc p.1 _ (fun q hq => ?_)
          have := hdisj p (by simp) q hq
          simpa [ijKey, hc] using this
    have hloop : item_dict_loop cd item acc (p :: rest) =
        item_dict_loop cd item (acc ++ itemFieldJson cd item p) rest := by
      rw [item_dict_loop, hstep]
    have hnd' : (ijKey cd p :: rest.map (ijKey cd)).Nodup := by simpa using hnd
    have hnotmem := (List.nodup_cons.mp hnd').1
    have hndrest := (List.nodup_cons.mp hnd').2
    have hdisj' : ∀ p' ∈ rest, ∀ q ∈ acc ++ itemFieldJson cd item p,
        (q.1 == ijKey cd p') = false := by
      intro p' hp' q hq
      rcases List.mem_append.mp hq with hqa | hqf
      · exact hdisj p' (by simp [hp']) q hqa
      · have hk := mem_itemFieldJson_key cd item p q hqf
        have hne : ijKey cd p ≠ ijKey cd p' := fun heq =>
          hnotmem (heq ▸ List.mem_map_of_mem (ijKey cd) hp')
        rw [hk]
        exact beq_eq_false_iff_ne.mpr hne
    rw [hloop, ih _ hndrest hdisj']
    simp [List.flatten_cons]

theorem get_item_dict_eq (item : Element) :
    get_item_dict channel_elements_dict item_elements_dict item =
      (item_elements_dict.map (itemFieldJson channel_elements_dict item)).flatten := by
  have := item_dict_loop_eq channel_elements_dict item item_elements_dict [] (by decide) (by simp)
  simpa [get_item_dict] using this

theorem channelFieldJson_lookup_ne (channel : Element) (p : String × String)
    (k : String) (h : jKey p ≠ k) :
    dictLookup (channelFieldJson channel p) k = none := by
  unfold dictLookup
  rw [List.find?_eq_none.mpr (fun q hq => ?_)]
  · rfl
  · have hk := mem_channelFieldJson_key channel p q hq
    rw [hk]
    simp only [beq_iff_eq]
    exact h

theorem channelFieldJson_lookup_scalar (channel : Element) (p : String × String)
    (h : (p.1 == "category") = false) :
    dictLookup (channelFieldJson channel p) p.1 =
      (channel.find p.1).map (fun n => JsonVal.str n.text) := by
  cases hf : channel.find p.1 <;>
    simp [channelFieldJson, hf, h, dictLookup_cons, dictLookup_nil]

theorem channelFieldJson_lookup_cat (channel : Element)
    (hne : ((channel.findall ("category")).map Element.text).isEmpty = false) :
    dictLookup (channelFieldJson channel ("category", "Categories")) ("Categories") =
      some (.strList ((channel.findall ("category")).map Element.text)) := by
  have hfa : channel.findall ("category") ≠ [] := by
    intro h0
    rw [h0] at hne
    simp at hne
  cases hfind : channel.find ("category") with
  | none => exact absurd ((find_none_iff_findall_nil channel ("category")).mp hfind) hfa
  | some node => simp [channelFieldJson, hfind, hne, dictLookup_cons]

theorem itemFieldJson_lookup_ne (cd : Catalog) (item : Element) (p : String × String)
    (k : String) (h : ijKey cd p ≠ k) :
    dictLookup (itemFieldJson cd item p) k = none := by
  unfold dictLookup
  rw [List.find?_eq_none.mpr (fun q hq => ?_)]
  · rfl
  · have hk := mem_itemFieldJson_key cd item p q hq
    rw [hk]
    simp only [beq_iff_eq]
    exact h

theorem itemFieldJson_lookup_scalar (cd : Catalog) (item : Element) (p : String × String)
    (h : (p.1 == "category") = false) :
    dictLookup (itemFieldJson cd item p) p.1 =
      (item.find p.1).map (fun n => JsonVal.str n.text) := by
  cases hf : item.find p.1 <;>
    simp [itemFieldJson, hf, h, dictLookup_cons, dictLookup_nil]

theorem itemFieldJson_lookup_cat (item : Element)
    (hne : ((item.findall ("category")).map Element.text).isEmpty = false) :
    dictLookup (itemFieldJson channel_elements_dict item ("category", "Categories"))
        ("Categories") =
      some (.strList ((item.findall ("category")).map Element.text)) := by
  have hfa : item.findall ("category") ≠ [] := by
    intro h0
    rw [h0] at hne
    simp at hne
  cases hfind : item.find ("category") with
  | none => exact absurd ((find_none_iff_findall_nil item ("category")).mp hfind) hfa
  | some node =>
    have hdg : dictGet channel_elements_dict ("category") = "Categories" := rfl
    simp [itemFieldJson, hfind, hne, dictLookup_cons, hdg]

/-- **C5, counterexample.** A `<title/>` child with no text is rendered as
`"Feed: None"` (not `"Feed: "`) in text mode and as a null (not an
empty-string) value in JSON mode, both for a channel and for an item. -/
theorem c5_counterexample :
    get_channel_items channel_elements_dict emptyTitleChannel = ["Feed: None"] ∧
    ("Feed: None" : String) ≠ "Feed: " ∧
    get_channel_items_json channel_elements_dict emptyTitleChannel =
      [("title", JsonVal.str none)] ∧
    get_item_lines channel_elements_dict item_elements_dict emptyTitleItem =
      .ok ["Title: None"] ∧
    ("Title: None" : String) ≠ "Title: " ∧
    get_item_dict channel_elements_dict item_elements_dict emptyTitleItem =
      [("title", JsonVal.str none)] ∧
    JsonVal.str none ≠ JsonVal.str (some ("")) :=
  ⟨rfl, by decide, rfl, rfl, by decide, rfl, by simp⟩

/-- **C10.** In JSON mode, channel scalar fields are keyed by their raw XML
element name, exactly as item scalar fields are; in both objects only the
category field is keyed by its display label `"Categories"`, and the raw name
`"category"` is never a key. -/
theorem c10_json_key_convention :
    (∀ (ch : Element) (p : String × String), p ∈ channel_elements_dict →
       (p.1 == "category") = false →
       dictLookup (get_channel_items_json channel_elements_dict ch) p.1 =
         (ch.find p.1).map (fun n => JsonVal.str n.text)) ∧
    (∀ ch : Element,
       dictLookup (get_channel_items_json channel_elements_dict ch) ("category") = none) ∧
    (∀ ch : Element,
       ((ch.findall ("category")).map Element.text).isEmpty = false →
       dictLookup (get_channel_items_json channel_elements_dict ch) ("Categories") =
         some (.strList ((ch.findall ("category")).map Element.text))) ∧
    (∀ (item : Element) (p : String × String), p ∈ item_elements_dict →
       (p.1 == "category") = false →
       dictLookup (get_item_dict channel_elements_dict item_elements_dict item) p.1 =
         (item.find p.1).map (fun n => JsonVal.str n.text)) ∧
    (∀ item : Element,
       dictLookup (get_item_dict channel_elements_dict item_elements_dict item)
         ("category") = none) ∧
    (∀ item : Element,
       ((item.findall ("category")).map Element.text).isEmpty = false →
       dictLookup (get_item_dict channel_elements_dict item_elements_dict item)
         ("Categories") =
         some (.strList ((item.findall ("category")).map Element.text))) := by
  refine ⟨?_, ?_, ?_, ?_, ?_, ?_⟩
  · intro ch p hmem htag
    rw [get_channel_items_json_eq]
    have hjk : jKey p = p.1 := by simp [jKey, htag]
    have hother : ∀ b ∈ channel_elements_dict, b ≠ p →
        dictLookup (channelFieldJson ch b) p.1 = none := by
      intro b hb hne
      refine channelFieldJson_lookup_ne ch b p.1 (fun heq => ?_)
      exact hne (List.inj_on_of_nodup_map
        (by decide : (channel_elements_dict.map jKey).Nodup) hb hmem (by rw [heq, hjk]))
    rw [dictLookup_flatten_mem (channelFieldJson ch) p.1 channel_elements_dict p hmem hother]
    exact channelFieldJson_lookup_scalar ch p htag
  · intro ch
    rw [get_channel_items_json_eq]
    refine dictLookup_flatten_none (channelFieldJson ch) ("category")
      channel_elements_dict (fun b hb => ?_)
    refine channelFieldJson_lookup_ne ch b ("category") ?_
    fin_cases hb <;> decide
  · intro ch hne
    rw [get_channel_items_json_eq]
    have hother : ∀ b ∈ channel_elements_dict, b ≠ ("category", "Categories") →
        dictLookup (channelFieldJson ch b) ("Categories") = none := by
      intro b hb hbne
      refine channelFieldJson_lookup_ne ch b ("Categories") ?_
      simp only [channel_elements_dict, List.mem_cons, List.not_mem_nil, or_false] at hb
      rcases hb with rfl | rfl | rfl | rfl | rfl | rfl | rfl | rfl <;> first
        | exact absurd rfl hbne
        | decide
    rw [dictLookup_flatten_mem (channelFieldJson ch) ("Categories") channel_elements_dict
      ("category", "Categories") (by decide) hother]
    exact channelFieldJson_lookup_cat ch hne
  · intro item p hmem htag
    rw [get_item_dict_eq]
    have hjk : ijKey channel_elements_dict p = p.1 := by simp [ijKey, htag]
    have hother : ∀ b ∈ item_elements_dict, b ≠ p →
        dictLookup (itemFieldJson channel_elements_dict item b) p.1 = none := by
      intro b hb hne
      refine itemFieldJson_lookup_ne channel_elements_dict item b p.1 (fun heq => ?_)
      exact hne (List.inj_on_of_nodup_map
        (by decide : (item_elements_dict.map (ijKey channel_elements_dict)).Nodup)
        hb hmem (by rw [heq, hjk]))
    rw [dictLookup_flatten_mem (itemFieldJson channel_elements_dict item) p.1
      item_elements_dict p hmem hother]
    exact itemFieldJson_lookup_scalar channel_elements_dict item p htag
  · intro item
    rw [get_item_dict_eq]
    refine dictLookup_flatten_none (itemFieldJson channel_elements_dict item) ("category")
      item_elements_dict (fun b hb => ?_)
    refine itemFieldJson_lookup_ne channel_elements_dict item b ("category") ?_
    fin_cases hb <;> decide
  · intro item hne
    rw [get_item_dict_eq]
    have hother : ∀ b ∈ item_elements_dict, b ≠ ("category", "Categories") →
        dictLookup (itemFieldJson channel_elements_dict item b) ("Categories") = none := by
      intro b hb hbne
      refine itemFieldJson_lookup_ne channel_elements_dict item b ("Categories") ?_
      simp only [item_elements_dict, List.mem_cons, List.not_mem_nil, or_false] at hb
      rcases hb with rfl | rfl | rfl | rfl | rfl | rfl <;> first
        | exact absurd rfl hbne
        | decide
    rw [dictLookup_flatten_mem (itemFieldJson channel_elements_dict item) ("Categories")
      item_elements_dict ("category", "Categories") (by decide) hother]
    exact itemFieldJson_lookup_cat item hne

/-- **C10, witness.** -/
theorem c10_json_key_convention_witness :
    ("title", "Feed") ∈ channel_elements_dict ∧
    (("title" : String) == "category") = false ∧
    dictLookup (get_channel_items_json channel_elements_dict emptyTitleChannel) ("title") =
      (emptyTitleChannel.find ("title")).map (fun n => JsonVal.str n.text) :=
  ⟨by decide, by decide,
    c10_json_key_convention.1 emptyTitleChannel ("title", "Feed") (by decide) (by decide)⟩

theorem channelFieldLines_scalar (ch : Element) (tag label : String)
    (h : (tag == "category") = false) :
    channelFieldLines ch (tag, label) = channelScalarLine ch tag label := by
  unfold channelFieldLines channelScalarLine
  cases hf : ch.find tag <;> simp [hf, h]

theorem channelFieldLines_cat (ch : Element)
    (hne : ((ch.findall ("category")).map Element.text).isEmpty = false) :
    channelFieldLines ch ("category", "Categories") =
      ["Categories: " ++ pyListRepr ((ch.findall ("category")).map Element.text)] := by
  have hfa : ch.findall ("category") ≠ [] := by
    intro h0
    rw [h0] at hne
    simp at hne
  cases hfind : ch.find ("category") with
  | none => exact absurd ((find_none_iff_findall_nil ch ("category")).mp hfind) hfa
  | some node =>
    unfold channelFieldLines
    rw [hfind]
    simp only [hne]
    rfl

theorem channelFieldLines_cat_empty (ch : Element)
    (he : ((ch.findall ("category")).map Element.text).isEmpty = true) :
    channelFieldLines ch ("category", "Categories") = [] := by
  cases hfind : ch.find ("category") with
  | none => simp [channelFieldLines, hfind]
  | some node => simp [channelFieldLines, hfind, he]

theorem get_channel_items_decomp (ch : Element) :
    get_channel_items channel_elements_dict ch =
      channelFieldLines ch ("title", "Feed") ++ channelFieldLines ch ("link", "Link") ++
      channelFieldLines ch ("lastBuildDate", "Last Build Date") ++
      channelFieldLines ch ("pubDate", "Publish Date") ++
      channelFieldLines ch ("language", "Language") ++
      channelFieldLines ch ("category", "Categories") ++
      channelFieldLines ch ("managinEditor", "Editor") ++
      channelFieldLines ch ("description", "Description") := by
  rw [get_channel_items_eq]
  simp [channel_elements_dict, List.append_assoc]

theorem channelFieldJson_lookup_cat_empty (ch : Element)
    (he : ((ch.findall ("category")).map Element.text).isEmpty = true) :
    dictLookup (get_channel_items_json channel_elements_dict ch) ("Categories") = none := by
  rw [get_channel_items_json_eq]
  refine dictLookup_flatten_none _ _ _ (fun b hb => ?_)
  by_cases hbc : b = ("category", "Categories")
  · subst hbc
    cases hfind : ch.find ("category") with
    | none => simp [channelFieldJson, hfind, dictLookup_nil]
    | some node => simp [channelFieldJson, hfind, he, dictLookup_nil]
  · refine channelFieldJson_lookup_ne ch b ("Categories") ?_
    simp only [channel_elements_dict, List.mem_cons, List.not_mem_nil, or_false] at hb
    rcases hb with rfl | rfl | rfl | rfl | rfl | rfl | rfl | rfl <;> first
      | exact absurd rfl hbc
      | decide

theorem itemFieldLinesE_cat (item : Element)
    (hne : ((item.findall ("category")).map Element.text).isEmpty = false)
    (hsome : ((item.findall ("category")).map Element.text).all Option.isSome = true) :
    itemFieldLinesE channel_elements_dict item ("category", "Categories") =
      .ok ["Categories " ++ String.intercalate (", ")
        (((item.findall ("category")).map Element.text).map (fun o => o.getD ("")))] := by
  have hfa : item.findall ("category") ≠ [] := by
    intro h0
    rw [h0] at hne
    simp at hne
  cases hfind : item.find ("category") with
  | none => exact absurd ((find_none_iff_findall_nil item ("category")).mp hfind) hfa
  | some node =>
    unfold itemFieldLinesE
    rw [hfind]
    simp only [hne, pyJoin, hsome, if_true]
    rfl

/-- **C3, amended.** Channel-level categories are rendered *with* a colon and
as the Python `str` of the list (`"Categories: ['a', 'b']"`), not comma-joined;
the no-colon comma-joined form (`"Categories a, b"`) is the *item*-level
rendering.  With zero `<category>` children both renderers omit the field; in
JSON mode the value is the array of the N category texts. -/
theorem c3_category_rendering (ch : Element) :
    (((ch.findall ("category")).map Element.text).isEmpty = false →
       get_channel_items channel_elements_dict ch =
         channelScalarLine ch ("title") "Feed" ++ channelScalarLine ch ("link") "Link" ++
         channelScalarLine ch ("lastBuildDate") "Last Build Date" ++
         channelScalarLine ch ("pubDate") "Publish Date" ++
         channelScalarLine ch ("language") "Language" ++
         ["Categories: " ++ pyListRepr ((ch.findall ("category")).map Element.text)] ++
         channelScalarLine ch ("managinEditor") "Editor" ++
         channelScalarLine ch ("description") "Description") ∧
    (((ch.findall ("category")).map Element.text).isEmpty = true →
       get_channel_items channel_elements_dict ch =
         channelScalarLine ch ("title") "Feed" ++ channelScalarLine ch ("link") "Link" ++
         channelScalarLine ch ("lastBuildDate") "Last Build Date" ++
         channelScalarLine ch ("pubDate") "Publish Date" ++
         channelScalarLine ch ("language") "Language" ++
         channelScalarLine ch ("managinEditor") "Editor" ++
         channelScalarLine ch ("description") "Description" ∧
       dictLookup (get_channel_items_json channel_elements_dict ch) ("Categories") = none) ∧
    (((ch.findall ("category")).map Element.text).isEmpty = false →
       dictLookup (get_channel_items_json channel_elements_dict ch) ("Categories") =
         some (.strList ((ch.findall ("category")).map Element.text)) ∧
       ((ch.findall ("category")).map Element.text).length =
         (ch.findall ("category")).length) ∧
    (∀ item : Element,
       ((item.findall ("category")).map Element.text).isEmpty = false →
       ((item.findall ("category")).map Element.text).all Option.isSome = true →
       itemFieldLinesE channel_elements_dict item ("category", "Categories") =
         .ok ["Categories " ++ String.intercalate (", ")
           (((item.findall ("category")).map Element.text).map (fun o => o.getD ("")))]) := by
  refine ⟨fun hne => ?_, fun he => ⟨?_, ?_⟩, fun hne => ⟨?_, ?_⟩, fun item hne hsome => ?_⟩
  · rw [get_channel_items_decomp,
      channelFieldLines_scalar ch ("title") "Feed" (by decide),
      channelFieldLines_scalar ch ("link") "Link" (by decide),
      channelFieldLines_scalar ch ("lastBuildDate") "Last Build Date" (by decide),
      channelFieldLines_scalar ch ("pubDate") "Publish Date" (by decide),
      channelFieldLines_scalar ch ("language") "Language" (by decide),
      channelFieldLines_scalar ch ("managinEditor") "Editor" (by decide),
      channelFieldLines_scalar ch ("description") "Description" (by decide),
      channelFieldLines_cat ch hne]
  · rw [get_channel_items_decomp,
      channelFieldLines_scalar ch ("title") "Feed" (by decide),
      channelFieldLines_scalar ch ("link") "Link" (by decide),
      channelFieldLines_scalar ch ("lastBuildDate") "Last Build Date" (by decide),
      channelFieldLines_scalar ch ("pubDate") "Publish Date" (by decide),
      channelFieldLines_scalar ch ("language") "Language" (by decide),
      channelFieldLines_scalar ch ("managinEditor") "Editor" (by decide),
      channelFieldLines_scalar ch ("description") "Description" (by decide),
      channelFieldLines_cat_empty ch he]
    simp
  · exact channelFieldJson_lookup_cat_empty ch he
  · rw [get_channel_items_json_eq]
    have hother : ∀ b ∈ channel_elements_dict, b ≠ ("category", "Categories") →
        dictLookup (channelFieldJson ch b) ("Categories") = none := by
      intro b hb hbne
      refine channelFieldJson_lookup_ne ch b ("Categories") ?_
      simp only [channel_elements_dict, List.mem_cons, List.not_mem_nil, or_false] at hb
      rcases hb with rfl | rfl | rfl | rfl | rfl | rfl | rfl | rfl <;> first
        | exact absurd rfl hbne
        | decide
    rw [dictLookup_flatten_mem (channelFieldJson ch) ("Categories") channel_elements_dict
      ("category", "Categories") (by decide) hother]
    exact channelFieldJson_lookup_cat ch hne
  · exact List.length_map _ _
  · exact itemFieldLinesE_cat item hne hsome

/-- **C3, counterexample.** A channel with two `<category>` children `a`, `b`
gets the single text line `"Categories: ['a', 'b']"` — with a colon and
Python's list `str`, not the claimed colon-free comma-joined
`"Categories a, b"`. -/
theorem c3_counterexample :
    get_channel_items channel_elements_dict twoCatChannel = ["Categories: ['a', 'b']"] ∧
    ("Categories: ['a', 'b']" : String) ≠ "Categories a, b" :=
  ⟨rfl, by decide⟩

/-- **C3, witness.** -/
theorem c3_category_rendering_witness :
    ((twoCatChannel.findall ("category")).map Element.text).isEmpty = false ∧
    (dictLookup (get_channel_items_json channel_elements_dict twoCatChannel)
        ("Categories") =
        some (.strList ((twoCatChannel.findall ("category")).map Element.text)) ∧
      ((twoCatChannel.findall ("category")).map Element.text).length =
        (twoCatChannel.findall ("category")).length) :=
  ⟨rfl, (c3_category_rendering twoCatChannel).2.2.1 rfl⟩

theorem itemFieldLinesE_scalar (cd : Catalog) (item : Element) (tag label : String)
    (h1 : (tag == "category") = false) (h2 : (tag == "<description>") = false) :
    itemFieldLinesE cd item (tag, label) = .ok (itemScalarLine item tag label) := by
  unfold itemFieldLinesE itemScalarLine
  cases hf : item.find tag <;> simp [hf, h1, h2]

theorem itemFieldLinesE_cat_ok (item : Element)
    (hsome : ((item.findall ("category")).map Element.text).all Option.isSome = true) :
    itemFieldLinesE channel_elements_dict item ("category", "Categories") =
      .ok (itemCatLine item) := by
  cases hfind : item.find ("category") with
  | none =>
    have hfa := (find_none_iff_findall_nil item ("category")).mp hfind
    simp [itemFieldLinesE, hfind, itemCatLine, hfa]
  | some node =>
    cases he : ((item.findall ("category")).map Element.text).isEmpty with
    | true => simp [itemFieldLinesE, hfind, he, itemCatLine]
    | false =>
      unfold itemFieldLinesE itemCatLine
      rw [hfind]
      simp only [he, pyJoin, hsome, if_true]
      rfl

/-- **C8.** An item `<description>` with text `C` is rendered through the
generic `"{label}: {value}"` rule with the empty label, producing the line
`": C"`: the special-case branch comparing against the literal
`"<description>"` never fires, so the description line sits last, after the
scalar and category lines. -/
theorem c8_description_generic_rule (item n : Element) (c : String)
    (hfind : item.find ("description") = some n) (htext : n.text = some c)
    (hcats : ((item.findall ("category")).map Element.text).all Option.isSome = true) :
    get_item_lines channel_elements_dict item_elements_dict item =
      .ok (itemScalarLine item ("title") "Title" ++ itemScalarLine item ("author") "Author" ++
        itemScalarLine item ("pubDate") "Published" ++ itemScalarLine item ("link") "Link" ++
        itemCatLine item ++ [": " ++ c]) := by
  have hdesc : itemFieldLinesE channel_elements_dict item ("description", "") =
      .ok [": " ++ c] := by
    have := itemFieldLinesE_scalar channel_elements_dict item ("description") ""
      (by decide) (by decide)
    rw [this]
    unfold itemScalarLine
    rw [hfind]
    simp [htext, pyStr]
  show item_fields_lines channel_elements_dict item item_elements_dict = _
  rw [item_fields_lines_eq]
  simp only [item_elements_dict, List.mapM_cons, List.mapM_nil,
    itemFieldLinesE_scalar channel_elements_dict item ("title") "Title" (by decide) (by decide),
    itemFieldLinesE_scalar channel_elements_dict item ("author") "Author" (by decide) (by decide),
    itemFieldLinesE_scalar channel_elements_dict item ("pubDate") "Published" (by decide) (by decide),
    itemFieldLinesE_scalar channel_elements_dict item ("link") "Link" (by decide) (by decide),
    itemFieldLinesE_cat_ok item hcats, hdesc]
  refine Eq.trans (b := Except.ok (List.flatten [itemScalarLine item ("title") "Title",
    itemScalarLine item ("author") "Author", itemScalarLine item ("pubDate") "Published",
    itemScalarLine item ("link") "Link", itemCatLine item, [": " ++ c]])) rfl ?_
  simp [List.flatten_cons, List.append_assoc]

/-- **C8, witness.** -/
theorem c8_description_generic_rule_witness :
    descItem.find ("description") = some (el ("description") (some ("hello")) []) ∧
    (el ("description") (some ("hello")) []).text = some ("hello") ∧
    ((descItem.findall ("category")).map Element.text).all Option.isSome = true ∧
    get_item_lines channel_elements_dict item_elements_dict descItem =
      .ok (itemScalarLine descItem ("title") "Title" ++
        itemScalarLine descItem ("author") "Author" ++
        itemScalarLine descItem ("pubDate") "Published" ++
        itemScalarLine descItem ("link") "Link" ++
        itemCatLine descItem ++ [": " ++ "hello"]) :=
  ⟨rfl, rfl, rfl,
    c8_description_generic_rule descItem (el ("description") (some ("hello")) []) "hello"
      rfl rfl rfl⟩

/-- **C9.** When the first channel contains none of the eight recognized
channel elements, the text path reaches `output[-1]` with an empty output list
and `rss_parser` fails with an `IndexError` instead of returning: the
well-formed-input precondition alone does not make the text renderer total. -/
theorem c9_empty_first_channel (parsed_xml ch : Element) (rest : List Element)
    (limit : Option Int)
    (hch : parsed_xml.findall ("channel") = ch :: rest)
    (hempty : ∀ p ∈ channel_elements_dict, ch.find p.1 = none)
    (hlim : limitInvalid limit = false) :
    rssParser (.ok parsed_xml) limit false = .error .indexError := by
  unfold rssParser
  rw [hlim]
  simp only [Bool.false_eq_true, if_false]
  unfold get_output
  rw [hch]
  have hgci : get_channel_items channel_elements_dict ch = [] :=
    gci_empty channel_elements_dict ch hempty
  simp [text_channels_loop, hgci, setLast, Except.map]

/-- **C9, witness.** -/
theorem c9_empty_first_channel_witness :
    emptyChannelDoc.findall ("channel") = el ("channel") none [] :: [] ∧
    (∀ p ∈ channel_elements_dict, (el ("channel") none []).find p.1 = none) ∧
    limitInvalid none = false ∧
    rssParser (.ok emptyChannelDoc) none false = .error .indexError :=
  ⟨rfl, by
    intro p hp
    simp only [channel_elements_dict, List.mem_cons, List.not_mem_nil, or_false] at hp
    rcases hp with rfl | rfl | rfl | rfl | rfl | rfl | rfl | rfl <;> rfl, rfl,
    c9_empty_first_channel emptyChannelDoc (el ("channel") none []) [] none rfl
      (by
        intro p hp
        simp only [channel_elements_dict, List.mem_cons, List.not_mem_nil, or_false] at hp
        rcases hp with rfl | rfl | rfl | rfl | rfl | rfl | rfl | rfl <;> rfl) rfl⟩

theorem items_text_loop_limit_zero (cd itd : Catalog) (items : List Element) :
    items_text_loop cd itd (some 0) 0 items = .ok [] := by
  cases items <;> simp [items_text_loop, breakCond]

theorem items_json_loop_limit_zero (cd itd : Catalog) (items : List Element) :
    items_json_loop cd itd (some 0) 0 items = [] := by
  cases items <;> simp [items_json_loop, breakCond]

theorem items_text_loop_no_limit (cd itd : Catalog) :
    ∀ (items : List Element) (count : Nat),
      items_text_loop cd itd none count items =
        (items.mapM (get_item_lines cd itd)).map List.flatten := by
  intro items
  induction items with
  | nil => intro _; rfl
  | cons item rest ih =>
    intro count
    rw [List.mapM_cons]
    have hb : breakCond none count = false := rfl
    simp only [items_text_loop, hb, Bool.false_eq_true, if_false, ih (count + 1)]
    cases hg : get_item_lines cd itd item with
    | error e => rfl
    | ok x =>
      cases hm : rest.mapM (get_item_lines cd itd) with
      | error e => rfl
      | ok xs => rfl

theorem items_json_loop_no_limit (cd itd : Catalog) :
    ∀ (items : List Element) (count : Nat),
      items_json_loop cd itd none count items = items.map (get_item_dict cd itd) := by
  intro items
  induction items with
  | nil => intro _; rfl
  | cons item rest ih =>
    intro count
    have hb : breakCond none count = false := rfl
    simp [items_json_loop, hb, ih (count + 1)]

theorem items_json_loop_length (cd itd : Catalog) (l : Int) :
    ∀ (items : List Element) (count : Nat),
      (items_json_loop cd itd (some l) count items).length =
        min (l - count).toNat items.length := by
  intro items
  induction items with
  | nil => intro count; simp [items_json_loop]
  | cons item rest ih =>
    intro count
    by_cases hge : ((count : Int) ≥ l)
    · have hb : breakCond (some l) count = true := by simp [breakCond, hge]
      have ht : (l - count).toNat = 0 := by omega
      simp [items_json_loop, hb, ht]
    · have hb : breakCond (some l) count = false := by simp [breakCond]; omega
      simp only [items_json_loop, hb, Bool.false_eq_true, if_false, List.length_cons,
        ih (count + 1)]
      omega

theorem gcij_keys_ne_items (ch : Element) :
    ∀ q ∈ get_channel_items_json channel_elements_dict ch, (q.1 == "items") = false := by
  intro q hq
  rw [get_channel_items_json_eq, List.mem_flatten] at hq
  obtain ⟨s, hs, hqs⟩ := hq
  rw [List.mem_map] at hs
  obtain ⟨p, hp, rfl⟩ := hs
  have hk := mem_channelFieldJson_key ch p q hqs
  rw [hk, beq_eq_false_iff_ne]
  simp only [channel_elements_dict, List.mem_cons, List.not_mem_nil, or_false] at hp
  rcases hp with rfl | rfl | rfl | rfl | rfl | rfl | rfl | rfl <;> decide

theorem json_loop_items_lookup (limit : Option Int) :
    ∀ (channels : List Element) (output : JsonObj) (v : JsonVal),
      dictLookup (json_channels_loop channel_elements_dict item_elements_dict limit
        output channels) ("items") = some v →
      (∃ ch ∈ channels,
        v = .objList (items_json_loop channel_elements_dict item_elements_dict limit 0
          (ch.findall ("item")))) ∨
      dictLookup output ("items") = some v := by
  intro channels
  induction channels with
  | nil => intro output v h; right; exact h
  | cons ch rest ih =>
    intro output v h
    simp only [json_channels_loop] at h
    rcases ih _ v h with hl | hr
    · left
      obtain ⟨ch', hch', hv⟩ := hl
      exact ⟨ch', by simp [hch'], hv⟩
    · cases he : (items_json_loop channel_elements_dict item_elements_dict limit 0
          (ch.findall ("item"))).isEmpty with
      | true =>
        rw [he] at hr
        simp only [if_true] at hr
        rw [dictLookup_dictUpdate_ne output _ _ (gcij_keys_ne_items ch)] at hr
        right
        exact hr
      | false =>
        rw [he] at hr
        simp only [Bool.false_eq_true, if_false] at hr
        rw [dictLookup_dictSet_self] at hr
        left
        refine ⟨ch, by simp, ?_⟩
        injection hr with hr
        exact hr.symm

/-- **C2.** Limit semantics: with `limit = 0` the item loops emit nothing
regardless of the items present; with `limit` absent every item contributes its
record in order; and in JSON mode, whenever the `"items"` key is present its
value is the item array of one of the document's channels, of length
`min(limit, item count)` (item count when the limit is absent). -/
theorem c2_limit_semantics :
    (∀ items : List Element,
       items_text_loop channel_elements_dict item_elements_dict (some 0) 0 items =
         .ok [] ∧
       items_json_loop channel_elements_dict item_elements_dict (some 0) 0 items = []) ∧
    (∀ (count : Nat) (items : List Element),
       items_text_loop channel_elements_dict item_elements_dict none count items =
         (items.mapM (get_item_lines channel_elements_dict item_elements_dict)).map
           List.flatten ∧
       items_json_loop channel_elements_dict item_elements_dict none count items =
         items.map (get_item_dict channel_elements_dict item_elements_dict)) ∧
    (∀ (parsed_xml : Element) (limit : Option Int) (v : JsonVal),
       dictLookup (get_json_output channel_elements_dict item_elements_dict
         parsed_xml limit) ("items") = some v →
       ∃ ch ∈ parsed_xml.findall ("channel"),
         v = .objList (items_json_loop channel_elements_dict item_elements_dict limit 0
           (ch.findall ("item"))) ∧
         (items_json_loop channel_elements_dict item_elements_dict limit 0
           (ch.findall ("item"))).length =
           (match limit with
            | none => (ch.findall ("item")).length
            | some l => min l.toNat (ch.findall ("item")).length)) := by
  refine ⟨fun items => ⟨items_text_loop_limit_zero _ _ items,
    items_json_loop_limit_zero _ _ items⟩,
    fun count items => ⟨items_text_loop_no_limit _ _ items count,
      items_json_loop_no_limit _ _ items count⟩,
    fun parsed_xml limit v h => ?_⟩
  have h' := json_loop_items_lookup limit (parsed_xml.findall ("channel")) [] v h
  rcases h' with hl | hr
  · obtain ⟨ch, hch, hv⟩ := hl
    refine ⟨ch, hch, hv, ?_⟩
    cases limit with
    | none =>
      rw [items_json_loop_no_limit]
      simp
    | some l =>
      rw [items_json_loop_length]
      simp
  · exact absurd hr (by simp [dictLookup_nil])

/-- **C2, witness.** -/
theorem c2_limit_semantics_witness :
    dictLookup (get_json_output channel_elements_dict item_elements_dict c2Doc (some 1))
      ("items") = some (.objList [[("title", JsonVal.str (some ("I1")))]]) ∧
    (∃ ch ∈ c2Doc.findall ("channel"),
      JsonVal.objList [[("title", JsonVal.str (some ("I1")))]] =
        .objList (items_json_loop channel_elements_dict item_elements_dict (some 1) 0
          (ch.findall ("item"))) ∧
      (items_json_loop channel_elements_dict item_elements_dict (some 1) 0
        (ch.findall ("item"))).length =
        (match (some 1 : Option Int) with
         | none => (ch.findall ("item")).length
         | some l => min l.toNat (ch.findall ("item")).length)) :=
  ⟨rfl, c2_limit_semantics.2.2 c2Doc (some 1)
    (.objList [[("title", JsonVal.str (some ("I1")))]]) rfl⟩

theorem itemScalarLine_none (item node : Element) (tag label : String)
    (hfind : item.find tag = some node) (htext : node.text = none) :
    itemScalarLine item tag label = [label ++ ": None"] := by
  unfold itemScalarLine
  rw [hfind]
  show [label ++ ": " ++ pyStr node.text] = [label ++ ": None"]
  rw [htext]
  show [label ++ ": " ++ "None"] = [label ++ ": None"]
  rw [String.append_assoc]
  rfl

theorem get_item_lines_decomp (item : Element)
    (hcats : ((item.findall ("category")).map Element.text).all Option.isSome = true) :
    get_item_lines channel_elements_dict item_elements_dict item =
      .ok (itemScalarLine item ("title") ("Title") ++
        itemScalarLine item ("author") ("Author") ++
        itemScalarLine item ("pubDate") ("Published") ++
        itemScalarLine item ("link") ("Link") ++
        itemCatLine item ++ itemScalarLine item ("description") ("")) := by
  show item_fields_lines channel_elements_dict item item_elements_dict = _
  rw [item_fields_lines_eq]
  simp only [item_elements_dict, List.mapM_cons, List.mapM_nil,
    itemFieldLinesE_scalar channel_elements_dict item ("title") ("Title")
      (by decide) (by decide),
    itemFieldLinesE_scalar channel_elements_dict item ("author") ("Author")
      (by decide) (by decide),
    itemFieldLinesE_scalar channel_elements_dict item ("pubDate") ("Published")
      (by decide) (by decide),
    itemFieldLinesE_scalar channel_elements_dict item ("link") ("Link")
      (by decide) (by decide),
    itemFieldLinesE_scalar channel_elements_dict item ("description") ("")
      (by decide) (by decide),
    itemFieldLinesE_cat_ok item hcats]
  refine Eq.trans (b := Except.ok (List.flatten [itemScalarLine item ("title") ("Title"),
    itemScalarLine item ("author") ("Author"), itemScalarLine item ("pubDate") ("Published"),
    itemScalarLine item ("link") ("Link"), itemCatLine item,
    itemScalarLine item ("description") ("")])) rfl ?_
  simp [List.flatten_cons, List.append_assoc]

/-- **C5, amended.** An element that is present but has no text content is
extracted as Python `None`, not as the empty string, uniformly for channel
fields and item fields: the text renderer emits `"{label}: None"` (for items,
provided the renderer does not abort earlier on a text-less `<category>`), and
both the channel JSON object and the item JSON object store a null value under
the raw element name. -/
theorem c5_present_element_no_text :
    (∀ (ch node : Element) (tag label : String),
       (tag, label) ∈ channel_elements_dict → (tag == "category") = false →
       ch.find tag = some node → node.text = none →
       (label ++ ": None") ∈ get_channel_items channel_elements_dict ch ∧
       dictLookup (get_channel_items_json channel_elements_dict ch) tag =
         some (.str none)) ∧
    (∀ (item node : Element) (tag label : String),
       (tag, label) ∈ item_elements_dict → (tag == "category") = false →
       item.find tag = some node → node.text = none →
       (((item.findall ("category")).map Element.text).all Option.isSome = true →
          ∃ L, get_item_lines channel_elements_dict item_elements_dict item = .ok L ∧
            (label ++ ": None") ∈ L) ∧
       dictLookup (get_item_dict channel_elements_dict item_elements_dict item) tag =
         some (.str none)) := by
  constructor
  · intro ch node tag label hmem htag hfind htext
    constructor
    · rw [get_channel_items_eq, List.mem_flatten]
      refine ⟨channelFieldLines ch (tag, label), List.mem_map_of_mem _ hmem, ?_⟩
      unfold channelFieldLines
      rw [hfind]
      simp only [htag, Bool.false_eq_true, if_false, htext]
      simp only [pyStr, List.mem_singleton, String.append_assoc]
      rfl
    · rw [get_channel_items_json_eq]
      have hjk : jKey (tag, label) = tag := by simp [jKey, htag]
      have hother : ∀ b ∈ channel_elements_dict, b ≠ (tag, label) →
          dictLookup (channelFieldJson ch b) tag = none := by
        intro b hb hne
        refine channelFieldJson_lookup_ne ch b tag (fun heq => ?_)
        exact hne (List.inj_on_of_nodup_map
          (by decide : (channel_elements_dict.map jKey).Nodup) hb hmem (by rw [heq, hjk]))
      rw [dictLookup_flatten_mem (channelFieldJson ch) tag channel_elements_dict
        (tag, label) hmem hother]
      have hs := channelFieldJson_lookup_scalar ch (tag, label) htag
      simp only at hs
      rw [hs, hfind]
      simp [htext]
  · intro item node tag label hmem htag hfind htext
    constructor
    · intro hcats
      refine ⟨_, get_item_lines_decomp item hcats, ?_⟩
      simp only [item_elements_dict, List.mem_cons, List.not_mem_nil, or_false,
        Prod.mk.injEq] at hmem
      rcases hmem with ⟨rfl, rfl⟩ | ⟨rfl, rfl⟩ | ⟨rfl, rfl⟩ | ⟨rfl, rfl⟩ |
        ⟨rfl, rfl⟩ | ⟨rfl, rfl⟩
      · rw [itemScalarLine_none item node ("title") ("Title") hfind htext]
        simp [List.mem_append]
      · rw [itemScalarLine_none item node ("author") ("Author") hfind htext]
        simp [List.mem_append]
      · rw [itemScalarLine_none item node ("pubDate") ("Published") hfind htext]
        simp [List.mem_append]
      · rw [itemScalarLine_none item node ("link") ("Link") hfind htext]
        simp [List.mem_append]
      · exact absurd htag (by decide)
      · rw [itemScalarLine_none item node ("description") ("") hfind htext]
        simp [List.mem_append]
    · rw [get_item_dict_eq]
      have hjk : ijKey channel_elements_dict (tag, label) = tag := by simp [ijKey, htag]
      have hother : ∀ b ∈ item_elements_dict, b ≠ (tag, label) →
          dictLookup (itemFieldJson channel_elements_dict item b) tag = none := by
        intro b hb hne
        refine itemFieldJson_lookup_ne channel_elements_dict item b tag (fun heq => ?_)
        exact hne (List.inj_on_of_nodup_map
          (by decide : (item_elements_dict.map (ijKey channel_elements_dict)).Nodup)
          hb hmem (by rw [heq, hjk]))
      rw [dictLookup_flatten_mem (itemFieldJson channel_elements_dict item) tag
        item_elements_dict (tag, label) hmem hother]
      have hs := itemFieldJson_lookup_scalar channel_elements_dict item (tag, label) htag
      simp only at hs
      rw [hs, hfind]
      simp [htext]

/-- **C5, witness.** -/
theorem c5_present_element_no_text_witness :
    ("title", "Feed") ∈ channel_elements_dict ∧
    (("title" : String) == "category") = false ∧
    emptyTitleChannel.find ("title") = some (el ("title") none []) ∧
    (el ("title") none []).text = none ∧
    ("title", "Title") ∈ item_elements_dict ∧
    emptyTitleItem.find ("title") = some (el ("title") none []) ∧
    ((emptyTitleItem.findall ("category")).map Element.text).all Option.isSome = true ∧
    ((("Feed" ++ ": None") ∈ get_channel_items channel_elements_dict emptyTitleChannel ∧
      dictLookup (get_channel_items_json channel_elements_dict emptyTitleChannel)
        ("title") = some (.str none)) ∧
     ((∃ L, get_item_lines channel_elements_dict item_elements_dict emptyTitleItem =
          .ok L ∧ (("Title" ++ ": None") ∈ L)) ∧
      dictLookup (get_item_dict channel_elements_dict item_elements_dict emptyTitleItem)
        ("title") = some (.str none))) := by
  refine ⟨by decide, by decide, rfl, rfl, by decide, rfl, rfl, ?_, ?_, ?_⟩
  · exact c5_present_element_no_text.1 emptyTitleChannel (el ("title") none [])
      "title" "Feed" (by decide) (by decide) rfl rfl
  · exact (c5_present_element_no_text.2 emptyTitleItem (el ("title") none [])
      "title" "Title" (by decide) (by decide) rfl rfl).1 rfl
  · exact (c5_present_element_no_text.2 emptyTitleItem (el ("title") none [])
      "title" "Title" (by decide) (by decide) rfl rfl).2
